import Mathlib

/-!
Verification of the `koa2-weixin-oauth` OAuth client (src/index.js) against its
specification. The library is a single `Auth` session object: an in-memory token
cache keyed by `openid`, an authorize-URL builder, code-exchange and refresh
calls against the provider, and a profile fetch with lazy refresh.

The embedding is a shallow one. Network traffic is abstracted by an
`HttpResult` oracle describing what the single HTTP POST of each operation
produced (transport error, a body that `JSON.parse` rejects, or a parsed
payload). `new Date().getTime()` readings are passed in explicitly as `Int`
arguments. Each operation returns a `Step`: the settled (or unsettled) outcome
of the returned promise, the session state after the call, and the list of
network calls issued, in order.

Promise semantics modelled faithfully: the request callbacks in the source run
after the `Promise` executor has returned, so a `JSON.parse` exception thrown
there is NOT converted into a rejection: the promise never settles and the
exception escapes to the process level. This is the `Outcome.uncaught` case.
-/

/-- A JavaScript error value as observable by a caller (or by the process when
the error escapes every handler). `namedError name msg` stands for an `Error`
whose `name` field was reassigned, e.g. `NoOAuthTokenError`. -/
inductive JsError where
  | netErr (msg : String)
  | syntaxError
  | referenceError (ident : String)
  | namedError (name : String) (msg : String)
deriving DecidableEq, Repr

/-- One outbound HTTP POST of the library, with the form fields that influence
behaviour. `tokenReq` is the code-exchange POST (src/index.js:108-126),
`refreshReq` the refresh POST (152-169), `userinfoReq` the profile POST
(229-245). -/
inductive NetCall where
  | tokenReq (appid : String) (secret : String) (code : String)
  | refreshReq (appid : String) (refreshToken : String)
  | userinfoReq (accessToken : String) (openid : String) (lang : String)
deriving DecidableEq, Repr

/-- Oracle for one HTTP POST: the transport reported an error `netErr`, or a
body arrived but `JSON.parse` throws on it (`parseError`), or the body parsed
into a payload of shape `α`. -/
inductive HttpResult (α : Type) where
  | netErr (msg : String)
  | parseError
  | ok (data : α)
deriving DecidableEq, Repr

/-- How an awaited operation ends: the promise resolves, the promise rejects
(the `await` throws to the caller), or an exception was thrown outside the
promise executor so the promise never settles and the exception is an
uncaught, process-level one. -/
inductive Outcome (α : Type) where
  | resolved (a : α)
  | rejected (e : JsError)
  | uncaught (e : JsError)
deriving DecidableEq, Repr

/-- The token payload shape exchanged with the provider and stored in the
cache (see the docstrings at src/index.js:94-105): `access_token`,
`expires_in`, `refresh_token`, `openid`, `scope`, plus the locally stamped
`create_at` (src/index.js:77). Times are epoch milliseconds. -/
structure TokenData where
  access_token : String
  refresh_token : String
  expires_in : Int
  openid : String
  scope : String
  create_at : Int
deriving DecidableEq, Repr

/-- The `AccessToken` wrapper (src/index.js:4-9): it only wraps the data. -/
structure AccessToken where
  data : TokenData
deriving DecidableEq, Repr

/-- `AccessToken.prototype.isValid` (src/index.js:19-21):
`!!this.data.access_token && now < this.data.create_at + this.data.expires_in * 1000`.
String truthiness makes the first conjunct "access_token is non-empty". -/
def AccessToken.isValid (t : AccessToken) (now : Int) : Bool :=
  t.data.access_token != "" &&
    decide (now < t.data.create_at + t.data.expires_in * 1000)

/-- The parsed user-profile JSON, kept opaque: the source resolves
`JSON.parse(body)` verbatim (src/index.js:241). -/
structure UserInfo where
  payload : String
deriving DecidableEq, Repr

/-- The `Auth` session (src/index.js:39-51): credentials and the in-memory
store, a JS object mapping openid to token data (`undefined` is `none`). -/
structure Auth where
  appid : String
  appsecret : String
  store : String → Option TokenData

/-- `this.getToken` (src/index.js:44-46): `return this.store[openid]`. -/
def Auth.getToken (a : Auth) (openid : String) : Option TokenData :=
  a.store openid

/-- `this.saveToken` (src/index.js:48-50): `this.store[openid] = token`,
replacing whatever was there. -/
def Auth.saveToken (a : Auth) (openid : String) (token : TokenData) : Auth :=
  { a with store := fun k => if k = openid then some token else a.store k }

/-- `Auth.prototype.processToken` (src/index.js:76-81): stamp
`data.create_at = new Date().getTime()`, store under `data.openid`, return
`AccessToken(data)`. The returned wrapper holds exactly the stored record. -/
def Auth.processToken (a : Auth) (data : TokenData) (now : Int) :
    AccessToken × Auth :=
  let data2 := { data with create_at := now }
  (⟨data2⟩, a.saveToken data2.openid data2)

/-- Result of running one library operation: the promise outcome, the session
state afterwards, and the network calls issued in order. -/
structure Step (α : Type) where
  outcome : Outcome α
  auth : Auth
  calls : List NetCall

/-- `Auth.prototype.getAccessToken` (src/index.js:108-126). One POST to the
token endpoint with `{appid, secret, code, grant_type}`. Transport error:
`reject(err)` with the original error. Otherwise `JSON.parse(body)` runs in
the request callback: a parse throw is an uncaught exception (the promise
stays pending); on success `processToken` stores and resolves. -/
def Auth.getAccessToken (a : Auth) (code : String)
    (resp : HttpResult TokenData) (now : Int) : Step AccessToken :=
  match resp with
  | .netErr msg =>
      ⟨.rejected (.netErr msg), a, [.tokenReq a.appid a.appsecret code]⟩
  | .parseError =>
      ⟨.uncaught .syntaxError, a, [.tokenReq a.appid a.appsecret code]⟩
  | .ok d =>
      let r := a.processToken d now
      ⟨.resolved r.1, r.2, [.tokenReq a.appid a.appsecret code]⟩

/-- `Auth.prototype.refreshAccessToken` (src/index.js:152-169). Same contract
as `getAccessToken`, POSTing `{appid, grant_type, refresh_token}`. -/
def Auth.refreshAccessToken (a : Auth) (refreshToken : String)
    (resp : HttpResult TokenData) (now : Int) : Step AccessToken :=
  match resp with
  | .netErr msg =>
      ⟨.rejected (.netErr msg), a, [.refreshReq a.appid refreshToken]⟩
  | .parseError =>
      ⟨.uncaught .syntaxError, a, [.refreshReq a.appid refreshToken]⟩
  | .ok d =>
      let r := a.processToken d now
      ⟨.resolved r.1, r.2, [.refreshReq a.appid refreshToken]⟩

/-- Outcome of the userinfo POST's callback (src/index.js:237-243): reject on
transport error, uncaught throw on a bad body, resolve the parsed profile. -/
def userOutcome (resp : HttpResult UserInfo) : Outcome UserInfo :=
  match resp with
  | .netErr msg => .rejected (.netErr msg)
  | .parseError => .uncaught .syntaxError
  | .ok u => .resolved u

/-- `Auth.prototype._getUser` (src/index.js:229-245): one POST to the userinfo
endpoint with `{access_token, openid, lang}`, `lang` defaulting to `zh_CN`.
The cache is untouched. -/
def Auth._getUser (a : Auth) (openid : String) (accessToken : String)
    (lang : Option String) (resp : HttpResult UserInfo) : Step UserInfo :=
  ⟨userOutcome resp, a, [.userinfoReq accessToken openid (lang.getD "zh_CN")]⟩

/-- Environment for one `getUser` run: the clock reading taken by `isValid`,
the oracle and clock for the (possible) refresh POST, and the oracle for the
userinfo POST. -/
structure UserEnv where
  tCheck : Int
  refreshResp : HttpResult TokenData
  tRefresh : Int
  userResp : HttpResult UserInfo

/-- `Auth.prototype.getUser` (src/index.js:210-227). When the cache has no
record, the source builds the error message from `options.openid`
(src/index.js:214) but no `options` binding exists in the function, so the
async function rejects with a ReferenceError before the intended
`NoOAuthTokenError` is ever constructed; no network call is made. With a
cached record: if valid, fetch the profile with its `access_token`; if not,
await `refreshAccessToken(data.refresh_token)` first, then fetch with the new
record's `access_token`. An unsettled refresh promise leaves `getUser`
unsettled with the same process-level exception. -/
def Auth.getUser (a : Auth) (openid : String) (env : UserEnv) : Step UserInfo :=
  match a.getToken openid with
  | none => ⟨.rejected (.referenceError "options"), a, []⟩
  | some data =>
      if (AccessToken.mk data).isValid env.tCheck then
        a._getUser openid data.access_token none env.userResp
      else
        let s := a.refreshAccessToken data.refresh_token env.refreshResp
          env.tRefresh
        match s.outcome with
        | .resolved newToken =>
            let s2 := s.auth._getUser openid newToken.data.access_token none
              env.userResp
            ⟨s2.outcome, s2.auth, s.calls ++ s2.calls⟩
        | .rejected e => ⟨.rejected e, s.auth, s.calls⟩
        | .uncaught e => ⟨.uncaught e, s.auth, s.calls⟩

/-- Environment for one `getUserByCode` run: oracle and clock for the
code-exchange POST, then a `UserEnv` for the inner `getUser`. -/
structure CodeEnv where
  tokenResp : HttpResult TokenData
  tToken : Int
  userEnv : UserEnv

/-- `Auth.prototype.getUserByCode` (src/index.js:275-278):
`const token = await this.getAccessToken(code); return await this.getUser(token.data.openid)`. -/
def Auth.getUserByCode (a : Auth) (code : String) (env : CodeEnv) :
    Step UserInfo :=
  let s := a.getAccessToken code env.tokenResp env.tToken
  match s.outcome with
  | .resolved token =>
      let s2 := s.auth.getUser token.data.openid env.userEnv
      ⟨s2.outcome, s2.auth, s.calls ++ s2.calls⟩
  | .rejected e => ⟨.rejected e, s.auth, s.calls⟩
  | .uncaught e => ⟨.uncaught e, s.auth, s.calls⟩

/-- Modelled from the spec's words for the refinement claim C6:
"`exchangeCodeForToken(code)` then `getUserProfile(record.userIdentifier)`.
Fails with whatever either step fails with." Stated as the sequential
composition of the two embedded operations. -/
def getUserProfileByCodeSpec (a : Auth) (code : String) (env : CodeEnv) :
    Step UserInfo :=
  match a.getAccessToken code env.tokenResp env.tToken with
  | ⟨.resolved record, a2, calls⟩ =>
      match a2.getUser record.data.openid env.userEnv with
      | ⟨o, a3, calls2⟩ => ⟨o, a3, calls ++ calls2⟩
  | ⟨.rejected e, a2, calls⟩ => ⟨.rejected e, a2, calls⟩
  | ⟨.uncaught e, a2, calls⟩ => ⟨.uncaught e, a2, calls⟩

/-! Theorems for the claims. -/

/-- Claim C2: `isValid` returns true iff `access_token` is a non-empty string
and the current time is strictly below `create_at + expires_in * 1000`; the
exact boundary instant counts as expired, and a record created 2000 ms ago
with `expires_in = 1` is expired. -/
theorem isValid_characterisation (t : AccessToken) (now : Int) :
    (t.isValid now = true ↔
      (t.data.access_token ≠ "" ∧
        now < t.data.create_at + t.data.expires_in * 1000))
    ∧ (now = t.data.create_at + t.data.expires_in * 1000 →
        t.isValid now = false)
    ∧ (t.data.expires_in = 1 → t.data.create_at = now - 2000 →
        t.isValid now = false) := by
  refine ⟨?_, ?_, ?_⟩
  · simp [AccessToken.isValid]
  · intro h
    have hlt : ¬ (now < t.data.create_at + t.data.expires_in * 1000) := by
      omega
    simp [AccessToken.isValid, hlt]
  · intro h1 h2
    have hlt : ¬ (now < t.data.create_at + t.data.expires_in * 1000) := by
      rw [h1, h2]; omega
    simp [AccessToken.isValid, hlt]

/-- Witness for C2: a record stamped at time 0 with a one-second lifetime is
invalid at time 2000 (2000 ms later). -/
theorem isValid_characterisation_witness :
    AccessToken.isValid ⟨⟨"tok", "ref", 1, "u", "sc", 0⟩⟩ 2000 = false :=
  (isValid_characterisation ⟨⟨"tok", "ref", 1, "u", "sc", 0⟩⟩ 2000).2.2
    rfl (by decide)

/-- Claim C5: on a successful code exchange or refresh, the parsed payload is
stamped with the local clock reading (overwriting any provider-supplied
`create_at`), stored under the payload's `openid` replacing whatever was
cached there before, and the resolved record is exactly the stored record. -/
theorem token_storage (a : Auth) (code refreshToken : String) (d : TokenData)
    (now : Int) :
    ((a.getAccessToken code (.ok d) now).outcome
        = .resolved ⟨{ d with create_at := now }⟩
      ∧ (a.getAccessToken code (.ok d) now).auth.store d.openid
        = some { d with create_at := now })
    ∧ ((a.refreshAccessToken refreshToken (.ok d) now).outcome
        = .resolved ⟨{ d with create_at := now }⟩
      ∧ (a.refreshAccessToken refreshToken (.ok d) now).auth.store d.openid
        = some { d with create_at := now }) := by
  refine ⟨⟨rfl, ?_⟩, rfl, ?_⟩ <;>
    simp [Auth.getAccessToken, Auth.refreshAccessToken, Auth.processToken,
      Auth.saveToken]

/-- Claim C8: a transport failure makes the code-exchange and refresh
operations reject with the original network error, after exactly one HTTP
call (no retry), leaving the session (in particular its token cache)
unchanged. -/
theorem transport_failure (a : Auth) (code refreshToken msg : String)
    (now : Int) :
    a.getAccessToken code (.netErr msg) now
      = ⟨.rejected (.netErr msg), a, [.tokenReq a.appid a.appsecret code]⟩
    ∧ a.refreshAccessToken refreshToken (.netErr msg) now
      = ⟨.rejected (.netErr msg), a, [.refreshReq a.appid refreshToken]⟩ :=
  ⟨rfl, rfl⟩

/-- Claim C9 (behaviour at the failing input): when the provider returns a
body `JSON.parse` rejects, each of the three network-backed operations throws
outside its promise executor: the promise never settles (the awaited
operation does NOT fail with a propagated parse error) and the `SyntaxError`
is an uncaught, process-level exception. The cache is left unchanged. -/
theorem parse_failure_behaviour (a : Auth)
    (code refreshToken openid accessToken : String) (now : Int) :
    a.getAccessToken code .parseError now
      = ⟨.uncaught .syntaxError, a, [.tokenReq a.appid a.appsecret code]⟩
    ∧ a.refreshAccessToken refreshToken .parseError now
      = ⟨.uncaught .syntaxError, a, [.refreshReq a.appid refreshToken]⟩
    ∧ a._getUser openid accessToken none .parseError
      = ⟨.uncaught .syntaxError, a, [.userinfoReq accessToken openid "zh_CN"]⟩ :=
  ⟨rfl, rfl, rfl⟩

/-- Claim C1 (behaviour at the failing input): with no cached record for the
identifier, `getUser` makes no network call and rejects — but with a
`ReferenceError` for the undeclared `options` binding used in the error
message, never with the intended named `NoOAuthTokenError`. -/
theorem getUser_no_token (a : Auth) (openid : String) (env : UserEnv)
    (h : a.getToken openid = none) :
    a.getUser openid env = ⟨.rejected (.referenceError "options"), a, []⟩
    ∧ ∀ name msg,
        (a.getUser openid env).outcome ≠ .rejected (.namedError name msg) := by
  have hrun : a.getUser openid env
      = ⟨.rejected (.referenceError "options"), a, []⟩ := by
    unfold Auth.getUser
    rw [h]
  exact ⟨hrun, by intro name msg; rw [hrun]; simp⟩

/-- Witness for C1: a session with an empty cache, asked for `unknown-id`. -/
theorem getUser_no_token_witness :
    (Auth.mk "appid" "appsecret" (fun _ => none)).getUser "unknown-id"
        ⟨0, .parseError, 0, .parseError⟩
      = ⟨.rejected (.referenceError "options"),
         Auth.mk "appid" "appsecret" (fun _ => none), []⟩ :=
  (getUser_no_token (Auth.mk "appid" "appsecret" (fun _ => none)) "unknown-id"
    ⟨0, .parseError, 0, .parseError⟩ rfl).1

/-- Claim C3: with a cached record that is valid at call time, `getUser`
issues exactly one network call — the userinfo POST carrying the cached
`access_token` — no refresh call, and leaves the session unchanged. -/
theorem getUser_valid_token (a : Auth) (openid : String) (env : UserEnv)
    (data : TokenData)
    (hfound : a.getToken openid = some data)
    (hvalid : (AccessToken.mk data).isValid env.tCheck = true) :
    a.getUser openid env
      = ⟨userOutcome env.userResp, a,
         [.userinfoReq data.access_token openid "zh_CN"]⟩ := by
  unfold Auth.getUser
  rw [hfound]
  simp [hvalid, Auth._getUser]

/-- Witness for C3: a record stamped at time 0 with a 7200-second lifetime is
still valid at time 1000, so the profile is fetched with its token and the
trace has no refresh call. -/
theorem getUser_valid_token_witness :
    (Auth.mk "a" "s"
        (fun k => if k = "u" then some ⟨"at", "rt", 7200, "u", "sc", 0⟩
          else none)).getUser "u" ⟨1000, .parseError, 0, .ok ⟨"profile"⟩⟩
      = ⟨userOutcome (.ok ⟨"profile"⟩),
         Auth.mk "a" "s"
           (fun k => if k = "u" then some ⟨"at", "rt", 7200, "u", "sc", 0⟩
             else none),
         [.userinfoReq "at" "u" "zh_CN"]⟩ :=
  getUser_valid_token
    (Auth.mk "a" "s"
      (fun k => if k = "u" then some ⟨"at", "rt", 7200, "u", "sc", 0⟩
        else none))
    "u" ⟨1000, .parseError, 0, .ok ⟨"profile"⟩⟩ ⟨"at", "rt", 7200, "u", "sc", 0⟩
    (by simp [Auth.getToken]) (by decide)

/-- Claim C4: with a cached record that is expired at call time, `getUser`
issues exactly one refresh call carrying the cached `refresh_token`; if the
refresh rejects, `getUser` rejects with that same error and makes no further
call; if it succeeds, the profile is then fetched with the new record's
`access_token` and the refreshed record is in the cache. -/
theorem getUser_expired_token (a : Auth) (openid : String) (env : UserEnv)
    (data : TokenData)
    (hfound : a.getToken openid = some data)
    (hexpired : (AccessToken.mk data).isValid env.tCheck = false) :
    (∀ msg, env.refreshResp = .netErr msg →
      a.getUser openid env
        = ⟨.rejected (.netErr msg), a,
           [.refreshReq a.appid data.refresh_token]⟩)
    ∧ (∀ d, env.refreshResp = .ok d →
      a.getUser openid env
        = ⟨userOutcome env.userResp,
           a.saveToken d.openid { d with create_at := env.tRefresh },
           [.refreshReq a.appid data.refresh_token,
            .userinfoReq d.access_token openid "zh_CN"]⟩) := by
  constructor
  · intro msg hresp
    unfold Auth.getUser
    rw [hfound]
    simp [hexpired, hresp, Auth.refreshAccessToken]
  · intro d hresp
    unfold Auth.getUser
    rw [hfound]
    simp [hexpired, hresp, Auth.refreshAccessToken, Auth.processToken,
      Auth._getUser]

/-- Witness for C4: the spec's scenario — `expires_in = 1`, stamped 2000 ms in
the past — triggers exactly one refresh (with the cached refresh token)
before the profile fetch with the refreshed access token. -/
theorem getUser_expired_token_witness :
    (Auth.mk "a" "s"
        (fun k => if k = "u" then some ⟨"at", "rt", 1, "u", "sc", 0⟩
          else none)).getUser "u"
        ⟨2000, .ok ⟨"at2", "rt2", 7200, "u", "sc", 0⟩, 2100, .ok ⟨"profile"⟩⟩
      = ⟨userOutcome (.ok ⟨"profile"⟩),
         (Auth.mk "a" "s"
           (fun k => if k = "u" then some ⟨"at", "rt", 1, "u", "sc", 0⟩
             else none)).saveToken "u" ⟨"at2", "rt2", 7200, "u", "sc", 2100⟩,
         [.refreshReq "a" "rt", .userinfoReq "at2" "u" "zh_CN"]⟩ :=
  (getUser_expired_token
    (Auth.mk "a" "s"
      (fun k => if k = "u" then some ⟨"at", "rt", 1, "u", "sc", 0⟩ else none))
    "u" ⟨2000, .ok ⟨"at2", "rt2", 7200, "u", "sc", 0⟩, 2100, .ok ⟨"profile"⟩⟩
    ⟨"at", "rt", 1, "u", "sc", 0⟩ (by simp [Auth.getToken]) (by decide)).2
    ⟨"at2", "rt2", 7200, "u", "sc", 0⟩ rfl

/-- Claim C6: `getUserByCode` is observably equal — same outcome, same session
state, same network-call trace — to the spec's composition of the code
exchange followed by a profile fetch for the returned record's identifier. -/
theorem getUserByCode_refines_composition (a : Auth) (code : String)
    (env : CodeEnv) :
    a.getUserByCode code env = getUserProfileByCodeSpec a code env := by
  unfold Auth.getUserByCode getUserProfileByCodeSpec
  cases env.tokenResp <;> rfl

/-- Claim C10: for every session and every successful exchange or refresh,
the only cache key whose entry can change is the response payload's `openid`;
any other key reads exactly as before. In particular, in `getUser`'s expired
path, when the refresh response's `openid` differs from the requested
identifier, the refreshed record lands under the response's `openid` and the
requested identifier's entry is exactly as before. -/
theorem cache_frame (a : Auth) (code refreshToken openid k : String)
    (d data : TokenData) (now : Int) (env : UserEnv)
    (hk : k ≠ d.openid) :
    (a.getAccessToken code (.ok d) now).auth.store k = a.store k
    ∧ (a.refreshAccessToken refreshToken (.ok d) now).auth.store k
      = a.store k
    ∧ (a.getToken openid = some data →
        (AccessToken.mk data).isValid env.tCheck = false →
        env.refreshResp = .ok d → d.openid ≠ openid →
        (a.getUser openid env).auth.store openid = some data
        ∧ (a.getUser openid env).auth.store d.openid
          = some { d with create_at := env.tRefresh }) := by
  refine ⟨?_, ?_, ?_⟩
  · simp [Auth.getAccessToken, Auth.processToken, Auth.saveToken, hk]
  · simp [Auth.refreshAccessToken, Auth.processToken, Auth.saveToken, hk]
  · intro hfound hexpired hresp hne
    have hrun : a.getUser openid env
        = ⟨userOutcome env.userResp,
           a.saveToken d.openid { d with create_at := env.tRefresh },
           [.refreshReq a.appid data.refresh_token,
            .userinfoReq d.access_token openid "zh_CN"]⟩ := by
      unfold Auth.getUser
      rw [hfound]
      simp [hexpired, hresp, Auth.refreshAccessToken, Auth.processToken,
        Auth._getUser]
    rw [hrun]
    constructor
    · have hstore : a.store openid = some data := hfound
      simp [Auth.saveToken, Ne.symm hne, hstore]
    · simp [Auth.saveToken]

/-- Witness for C10: a first exchange on a session with an empty cache leaves
an unrelated key `w` empty, and refreshing an expired record for `u` with a
response whose `openid` is `v` leaves the entry for `u` untouched. -/
theorem cache_frame_witness :
    ((Auth.mk "a" "s" (fun _ => none)).getAccessToken "c"
          (.ok ⟨"at2", "rt2", 7200, "v", "sc", 0⟩) 2100).auth.store "w" = none
    ∧ ((Auth.mk "a" "s"
        (fun k => if k = "u" then some ⟨"at", "rt", 1, "u", "sc", 0⟩
          else none)).getUser "u"
          ⟨2000, .ok ⟨"at2", "rt2", 7200, "v", "sc", 0⟩, 2100,
           .ok ⟨"profile"⟩⟩).auth.store "u"
      = some ⟨"at", "rt", 1, "u", "sc", 0⟩ := by
  have h1 := cache_frame (Auth.mk "a" "s" (fun _ => none)) "c" "r" "u" "w"
    ⟨"at2", "rt2", 7200, "v", "sc", 0⟩ ⟨"at", "rt", 1, "u", "sc", 0⟩ 2100
    ⟨2000, .ok ⟨"at2", "rt2", 7200, "v", "sc", 0⟩, 2100, .ok ⟨"profile"⟩⟩
    (by decide)
  have h2 := cache_frame
    (Auth.mk "a" "s"
      (fun k => if k = "u" then some ⟨"at", "rt", 1, "u", "sc", 0⟩ else none))
    "c" "r" "u" "w" ⟨"at2", "rt2", 7200, "v", "sc", 0⟩
    ⟨"at", "rt", 1, "u", "sc", 0⟩ 2100
    ⟨2000, .ok ⟨"at2", "rt2", 7200, "v", "sc", 0⟩, 2100, .ok ⟨"profile"⟩⟩
    (by decide)
  exact ⟨h1.1,
    (h2.2.2 (by simp [Auth.getToken]) (by decide) rfl (by decide)).1⟩

/-!
Authorize-URL construction (claim C7). `querystring.stringify` percent-encodes
keys and values with `querystring.escape`, which is `encodeURIComponent`:
characters outside `A-Z a-z 0-9 - _ . ! ~ * ' ( )` are written as `%XX`
(uppercase hex) per UTF-8 byte. Strings are modelled as their Unicode scalar
sequences (`String.data`).
-/

/-- Uppercase hexadecimal digit, as emitted by `encodeURIComponent`. -/
def hexDigitChar (n : Nat) : Char :=
  "0123456789ABCDEF".data.getD n (Char.ofNat 48)

/-- Percent-escape of one byte: `%XX`. -/
def escByte (b : Nat) : List Char :=
  [Char.ofNat 37, hexDigitChar (b / 16), hexDigitChar (b % 16)]

/-- The characters `encodeURIComponent` leaves unescaped:
`A-Z a-z 0-9 - _ . ! ~ * ' ( )`. -/
def isUnreservedChar (c : Char) : Bool :=
  (65 ≤ c.toNat && c.toNat ≤ 90) || (97 ≤ c.toNat && c.toNat ≤ 122) ||
  (48 ≤ c.toNat && c.toNat ≤ 57) ||
  c.toNat == 45 || c.toNat == 95 || c.toNat == 46 || c.toNat == 33 ||
  c.toNat == 126 || c.toNat == 42 || c.toNat == 39 || c.toNat == 40 ||
  c.toNat == 41

/-- The UTF-8 bytes of one Unicode scalar value. -/
def utf8Bytes (c : Char) : List Nat :=
  if c.toNat < 128 then [c.toNat]
  else if c.toNat < 2048 then
    [192 + c.toNat / 64, 128 + c.toNat % 64]
  else if c.toNat < 65536 then
    [224 + c.toNat / 4096, 128 + (c.toNat / 64) % 64, 128 + c.toNat % 64]
  else
    [240 + c.toNat / 262144, 128 + (c.toNat / 4096) % 64,
     128 + (c.toNat / 64) % 64, 128 + c.toNat % 64]

/-- `encodeURIComponent` on one character. -/
def escChar (c : Char) : List Char :=
  if isUnreservedChar c then [c] else (utf8Bytes c).flatMap escByte

/-- `querystring.escape` over a whole scalar sequence. -/
def escList (s : List Char) : List Char :=
  s.flatMap escChar

/-- One `key=value` segment of `querystring.stringify` output, both sides
escaped. -/
def qsPairChars (k v : String) : List Char :=
  escList k.data ++ Char.ofNat 61 :: escList v.data

/-- `querystring.stringify` body: `key=value` segments joined by `&`, in
object-insertion order. -/
def qsChars : List (String × String) → List Char
  | [] => []
  | [p] => qsPairChars p.1 p.2
  | p :: rest => qsPairChars p.1 p.2 ++ Char.ofNat 38 :: qsChars rest

/-- `querystring.stringify` (as used at src/index.js:69). -/
def qsStringify (pairs : List (String × String)) : String :=
  ⟨qsChars pairs⟩

/-- JavaScript `s || dflt` on strings: only the empty string is falsy. -/
def jsOrDefault (s dflt : String) : String :=
  if s = "" then dflt else s

/-- `Auth.prototype.getAuthorizeURL` (src/index.js:59-71): the authorize
endpoint, `?`, the stringified `{appid, redirect_uri, scope ||
snsapi_base, state || empty, response_type}` object, and the literal
`#wechat_redirect` fragment. Pure string construction, always resolves. -/
def Auth.getAuthorizeURL (a : Auth) (redirect_uri scope state : String) :
    String :=
  "https://open.weixin.qq.com/connect/oauth2/authorize" ++ "?" ++
    qsStringify
      [("appid", a.appid), ("redirect_uri", redirect_uri),
       ("scope", jsOrDefault scope "snsapi_base"),
       ("state", jsOrDefault state ""),
       ("response_type", "code")] ++
    "#wechat_redirect"

/-!
Standard decoding side, following the spec's words "query parameters decode
back": take the part of the URL after the first `?` and before the first `#`,
split on `&`, split each segment at its first `=`, and percent-decode each
side (`%XX` triples to bytes, other characters to their own bytes, the byte
stream read back as UTF-8).
-/

/-- Value of one hexadecimal digit character, either case. -/
def hexVal (c : Char) : Option Nat :=
  if 48 ≤ c.toNat ∧ c.toNat ≤ 57 then some (c.toNat - 48)
  else if 65 ≤ c.toNat ∧ c.toNat ≤ 70 then some (c.toNat - 55)
  else if 97 ≤ c.toNat ∧ c.toNat ≤ 102 then some (c.toNat - 87)
  else none

/-- Percent-decoding to a byte stream: a `%` followed by two hex digits
becomes that byte, any other character contributes its own scalar value. -/
def pctDecodeBytes : List Char → List Nat
  | [] => []
  | c :: rest =>
    if c = Char.ofNat 37 then
      match rest with
      | h1 :: h2 :: rest2 =>
        match hexVal h1, hexVal h2 with
        | some x, some y => (16 * x + y) :: pctDecodeBytes rest2
        | _, _ => c.toNat :: pctDecodeBytes (h1 :: h2 :: rest2)
      | [h1] => c.toNat :: pctDecodeBytes [h1]
      | [] => [c.toNat]
    else c.toNat :: pctDecodeBytes rest
termination_by l => l.length
decreasing_by all_goals (simp only [List.length_cons]; omega)

/-- Number of bytes of the UTF-8 sequence announced by its lead byte. -/
def utf8Len (b : Nat) : Nat :=
  if b < 128 then 1 else if b < 224 then 2 else if b < 240 then 3 else 4

/-- Scalar value of one complete UTF-8 byte group (lenient on malformed
groups, which never arise on encoder output). -/
def utf8Combine : List Nat → Char
  | [b] => Char.ofNat b
  | [b, b1] => Char.ofNat ((b - 192) * 64 + (b1 - 128))
  | [b, b1, b2] =>
      Char.ofNat ((b - 224) * 4096 + (b1 - 128) * 64 + (b2 - 128))
  | [b, b1, b2, b3] =>
      Char.ofNat ((b - 240) * 262144 + (b1 - 128) * 4096 + (b2 - 128) * 64 +
        (b3 - 128))
  | _ => Char.ofNat 65533

/-- Reading a byte stream back as UTF-8 scalar values: each lead byte takes
its announced number of continuation bytes with it. -/
def utf8Decode : List Nat → List Char
  | [] => []
  | b :: rest =>
      utf8Combine (b :: rest.take (utf8Len b - 1)) ::
        utf8Decode (rest.drop (utf8Len b - 1))
termination_by l => l.length
decreasing_by simp only [List.length_cons, List.length_drop]; omega

/-- Full percent-decoding of one component. -/
def unescape (l : List Char) : String :=
  ⟨utf8Decode (pctDecodeBytes l)⟩

/-- Splitting on a separator character, `String.prototype.split` style. -/
def splitOnChar (sep : Char) : List Char → List (List Char)
  | [] => [[]]
  | c :: rest =>
    if c = sep then [] :: splitOnChar sep rest
    else
      match splitOnChar sep rest with
      | h :: t => (c :: h) :: t
      | [] => [[c]]

/-- Splitting a `key=value` segment at its first `=`. -/
def splitKV : List Char → List Char × List Char
  | [] => ([], [])
  | c :: rest =>
    if c = Char.ofNat 61 then ([], rest)
    else ((splitKV rest).1.cons c, (splitKV rest).2)

/-- Everything strictly before the first occurrence of `sep`. -/
def takeUntilChar (sep : Char) : List Char → List Char
  | [] => []
  | c :: rest => if c = sep then [] else c :: takeUntilChar sep rest

/-- Everything strictly after the first occurrence of `sep`. -/
def dropThroughChar (sep : Char) : List Char → List Char
  | [] => []
  | c :: rest => if c = sep then rest else dropThroughChar sep rest

/-- Decoding one `key=value` segment. -/
def decodePair (seg : List Char) : String × String :=
  (unescape (splitKV seg).1, unescape (splitKV seg).2)

/-- The decoded query parameters of a URL: the part between the first `?` and
the first `#`, split on `&`, each segment split at `=` and percent-decoded. -/
def decodeQueryParams (url : String) : List (String × String) :=
  (splitOnChar (Char.ofNat 38)
      (takeUntilChar (Char.ofNat 35)
        (dropThroughChar (Char.ofNat 63) url.data))).map decodePair

/-- Every Unicode scalar value is below 0x110000. -/
theorem char_toNat_lt (c : Char) : c.toNat < 1114112 := by
  rcases c.valid with h | ⟨_, h2⟩
  · exact Nat.lt_trans h (by decide)
  · exact h2

/-- `hexVal` inverts `hexDigitChar` on the digit range. -/
theorem hexVal_hexDigitChar (n : Nat) (h : n < 16) :
    hexVal (hexDigitChar n) = some n := by
  interval_cases n <;> decide

/-- Hex digit characters are unescaped characters. -/
theorem hexDigitChar_unreserved (n : Nat) (h : n < 16) :
    isUnreservedChar (hexDigitChar n) = true := by
  interval_cases n <;> decide

/-- Unreserved characters are ASCII. -/
theorem unreservedChar_lt (c : Char) (h : isUnreservedChar c = true) :
    c.toNat < 128 := by
  simp [isUnreservedChar] at h
  omega

/-- UTF-8 bytes are bytes. -/
theorem utf8Bytes_lt (c : Char) : ∀ b ∈ utf8Bytes c, b < 256 := by
  have hv : c.toNat < 1114112 := char_toNat_lt c
  unfold utf8Bytes
  split_ifs <;> (intro b hb; simp at hb) <;> omega

/-- An ASCII scalar is its own single UTF-8 byte. -/
theorem utf8Bytes_ascii (c : Char) (h : c.toNat < 128) :
    utf8Bytes c = [c.toNat] := by
  unfold utf8Bytes
  rw [if_pos h]

/-- Percent-decoding undoes the escape of one byte. -/
theorem pctDecodeBytes_escByte (b : Nat) (hb : b < 256) (r : List Char) :
    pctDecodeBytes (escByte b ++ r) = b :: pctDecodeBytes r := by
  have h1 : hexVal (hexDigitChar (b / 16)) = some (b / 16) :=
    hexVal_hexDigitChar _ (by omega)
  have h2 : hexVal (hexDigitChar (b % 16)) = some (b % 16) :=
    hexVal_hexDigitChar _ (by omega)
  simp [escByte, pctDecodeBytes, h1, h2]
  omega


/-- Unfolding lemma: percent-decoding past an ordinary character. -/
theorem pctDecodeBytes_cons_ne (c : Char) (r : List Char)
    (h : ¬ c = Char.ofNat 37) :
    pctDecodeBytes (c :: r) = c.toNat :: pctDecodeBytes r := by
  rw [pctDecodeBytes.eq_def]
  simp [h]

/-- Unfolding lemma: percent-decoding a `%XX` triple. -/
theorem pctDecodeBytes_triple (h1 h2 : Char) (r : List Char) (x y : Nat)
    (hx : hexVal h1 = some x) (hy : hexVal h2 = some y) :
    pctDecodeBytes (Char.ofNat 37 :: h1 :: h2 :: r)
      = (16 * x + y) :: pctDecodeBytes r := by
  rw [pctDecodeBytes.eq_def]
  simp [hx, hy]


/-- Percent-decoding undoes a whole run of escaped bytes. -/
theorem pctDecodeBytes_escBytes (bs : List Nat) (hb : ∀ b ∈ bs, b < 256)
    (r : List Char) :
    pctDecodeBytes (bs.flatMap escByte ++ r) = bs ++ pctDecodeBytes r := by
  induction bs with
  | nil => simp
  | cons b bs ih =>
      have hb1 : b < 256 := hb b (by simp)
      have hb2 : ∀ x ∈ bs, x < 256 := fun x hx => hb x (by simp [hx])
      simp only [List.flatMap_cons, List.append_assoc]
      rw [pctDecodeBytes_escByte b hb1, ih hb2]
      rfl

/-- Percent-decoding turns the escape of one character into its UTF-8
bytes. -/
theorem pctDecodeBytes_escChar (c : Char) (r : List Char) :
    pctDecodeBytes (escChar c ++ r) = utf8Bytes c ++ pctDecodeBytes r := by
  unfold escChar
  by_cases h : isUnreservedChar c = true
  · have hlt : c.toNat < 128 := unreservedChar_lt c h
    have hpc : ¬ (c = Char.ofNat 37) := by
      intro he
      rw [he] at h
      exact absurd h (by decide)
    rw [if_pos h, utf8Bytes_ascii c hlt]
    simp only [List.cons_append, List.nil_append]
    rw [pctDecodeBytes_cons_ne c r hpc]
  · rw [if_neg h]
    exact pctDecodeBytes_escBytes (utf8Bytes c) (utf8Bytes_lt c) r

/-- UTF-8 decoding undoes the byte encoding of one scalar. -/
theorem utf8Decode_utf8Bytes (c : Char) (r : List Nat) :
    utf8Decode (utf8Bytes c ++ r) = c :: utf8Decode r := by
  have hv : c.toNat < 1114112 := char_toNat_lt c
  unfold utf8Bytes
  split_ifs with h1 h2 h3
  · have hlen : utf8Len c.toNat = 1 := by simp [utf8Len, h1]
    simp only [List.cons_append, List.nil_append]
    rw [utf8Decode, hlen]
    show utf8Combine [c.toNat] :: utf8Decode r = c :: utf8Decode r
    rw [utf8Combine, Char.ofNat_toNat]
  · have e1 : ¬ (192 + c.toNat / 64 < 128) := by omega
    have e2 : 192 + c.toNat / 64 < 224 := by omega
    have hlen : utf8Len (192 + c.toNat / 64) = 2 := by
      simp [utf8Len, e1, e2]
    have harith : (192 + c.toNat / 64 - 192) * 64 + (128 + c.toNat % 64 - 128)
        = c.toNat := by omega
    simp only [List.cons_append, List.nil_append]
    rw [utf8Decode, hlen]
    show utf8Combine [192 + c.toNat / 64, 128 + c.toNat % 64] ::
        utf8Decode r = c :: utf8Decode r
    rw [utf8Combine, harith, Char.ofNat_toNat]
  · have e1 : ¬ (224 + c.toNat / 4096 < 128) := by omega
    have e2 : ¬ (224 + c.toNat / 4096 < 224) := by omega
    have e3 : 224 + c.toNat / 4096 < 240 := by omega
    have hlen : utf8Len (224 + c.toNat / 4096) = 3 := by
      simp [utf8Len, e1, e2, e3]
    have harith : (224 + c.toNat / 4096 - 224) * 4096 +
        (128 + c.toNat / 64 % 64 - 128) * 64 + (128 + c.toNat % 64 - 128)
        = c.toNat := by omega
    simp only [List.cons_append, List.nil_append]
    rw [utf8Decode, hlen]
    show utf8Combine [224 + c.toNat / 4096, 128 + c.toNat / 64 % 64,
        128 + c.toNat % 64] :: utf8Decode r = c :: utf8Decode r
    rw [utf8Combine, harith, Char.ofNat_toNat]
  · have e1 : ¬ (240 + c.toNat / 262144 < 128) := by omega
    have e2 : ¬ (240 + c.toNat / 262144 < 224) := by omega
    have e3 : ¬ (240 + c.toNat / 262144 < 240) := by omega
    have hlen : utf8Len (240 + c.toNat / 262144) = 4 := by
      simp [utf8Len, e1, e2, e3]
    have harith : (240 + c.toNat / 262144 - 240) * 262144 +
        (128 + c.toNat / 4096 % 64 - 128) * 4096 +
        (128 + c.toNat / 64 % 64 - 128) * 64 + (128 + c.toNat % 64 - 128)
        = c.toNat := by omega
    simp only [List.cons_append, List.nil_append]
    rw [utf8Decode, hlen]
    show utf8Combine [240 + c.toNat / 262144, 128 + c.toNat / 4096 % 64,
        128 + c.toNat / 64 % 64, 128 + c.toNat % 64] :: utf8Decode r
        = c :: utf8Decode r
    rw [utf8Combine, harith, Char.ofNat_toNat]

/-- Percent-decoding an escaped string yields exactly its UTF-8 byte
stream. -/
theorem pctDecodeBytes_escList (s : List Char) :
    pctDecodeBytes (escList s) = s.flatMap utf8Bytes := by
  induction s with
  | nil => rw [escList, List.flatMap_nil, List.flatMap_nil, pctDecodeBytes]
  | cons c s ih =>
      rw [escList, List.flatMap_cons, List.flatMap_cons]
      rw [show (s.flatMap escChar) = escList s from rfl]
      rw [pctDecodeBytes_escChar, ih]

/-- UTF-8 decoding undoes the byte encoding of a whole string. -/
theorem utf8Decode_flatMap (s : List Char) :
    utf8Decode (s.flatMap utf8Bytes) = s := by
  induction s with
  | nil => rw [List.flatMap_nil, utf8Decode]
  | cons c s ih => rw [List.flatMap_cons, utf8Decode_utf8Bytes, ih]

/-- Full round trip: unescaping an escaped scalar sequence is the
identity. -/
theorem unescape_escList (s : List Char) : unescape (escList s) = ⟨s⟩ := by
  unfold unescape
  rw [pctDecodeBytes_escList, utf8Decode_flatMap]

/-- Every character of an escaped string is unreserved or the percent
sign. -/
theorem mem_escList (s : List Char) (c' : Char) (h : c' ∈ escList s) :
    isUnreservedChar c' = true ∨ c' = Char.ofNat 37 := by
  rcases List.mem_flatMap.1 h with ⟨c, _, hc⟩
  unfold escChar at hc
  by_cases hu : isUnreservedChar c = true
  · rw [if_pos hu] at hc
    simp at hc
    subst hc
    exact Or.inl hu
  · rw [if_neg hu] at hc
    rcases List.mem_flatMap.1 hc with ⟨b, hb, hcb⟩
    have hb256 : b < 256 := utf8Bytes_lt c b hb
    unfold escByte at hcb
    simp at hcb
    rcases hcb with h1 | h1 | h1
    · exact Or.inr h1
    · exact Or.inl (h1 ▸ hexDigitChar_unreserved _ (by omega))
    · exact Or.inl (h1 ▸ hexDigitChar_unreserved _ (by omega))

/-- A reserved, non-percent character never occurs in escaped output. -/
theorem notMem_escList (c' : Char) (s : List Char)
    (h1 : isUnreservedChar c' = false) (h2 : ¬ c' = Char.ofNat 37) :
    c' ∉ escList s := by
  intro hm
  rcases mem_escList s c' hm with h | h
  · simp [h1] at h
  · exact h2 h

/-- Splitting a separator-free list is the identity. -/
theorem splitOnChar_not_mem (sep : Char) (l : List Char) (h : sep ∉ l) :
    splitOnChar sep l = [l] := by
  induction l with
  | nil => rfl
  | cons c rest ih =>
      rw [List.mem_cons, not_or] at h
      have hc : ¬ c = sep := fun e => h.1 e.symm
      rw [splitOnChar, if_neg hc, ih h.2]

/-- Splitting peels off a separator-free head segment. -/
theorem splitOnChar_append (sep : Char) (l r : List Char) (h : sep ∉ l) :
    splitOnChar sep (l ++ sep :: r) = l :: splitOnChar sep r := by
  induction l with
  | nil =>
      simp only [List.nil_append]
      rw [splitOnChar, if_pos rfl]
  | cons c rest ih =>
      rw [List.mem_cons, not_or] at h
      have hc : ¬ c = sep := fun e => h.1 e.symm
      simp only [List.cons_append]
      rw [splitOnChar, if_neg hc, ih h.2]

/-- Splitting a segment at its first `=`. -/
theorem splitKV_append (k v : List Char) (h : Char.ofNat 61 ∉ k) :
    splitKV (k ++ Char.ofNat 61 :: v) = (k, v) := by
  induction k with
  | nil =>
      simp only [List.nil_append]
      rw [splitKV, if_pos rfl]
  | cons c rest ih =>
      rw [List.mem_cons, not_or] at h
      have hc : ¬ c = Char.ofNat 61 := fun e => h.1 e.symm
      simp only [List.cons_append]
      rw [splitKV, if_neg hc, ih h.2]

/-- Keeping what stands before the first separator. -/
theorem takeUntilChar_append (sep : Char) (l r : List Char) (h : sep ∉ l) :
    takeUntilChar sep (l ++ sep :: r) = l := by
  induction l with
  | nil =>
      simp only [List.nil_append]
      rw [takeUntilChar, if_pos rfl]
  | cons c rest ih =>
      rw [List.mem_cons, not_or] at h
      have hc : ¬ c = sep := fun e => h.1 e.symm
      simp only [List.cons_append]
      rw [takeUntilChar, if_neg hc, ih h.2]

/-- Keeping what stands after the first separator. -/
theorem dropThroughChar_append (sep : Char) (l r : List Char) (h : sep ∉ l) :
    dropThroughChar sep (l ++ sep :: r) = r := by
  induction l with
  | nil =>
      simp only [List.nil_append]
      rw [dropThroughChar, if_pos rfl]
  | cons c rest ih =>
      rw [List.mem_cons, not_or] at h
      have hc : ¬ c = sep := fun e => h.1 e.symm
      simp only [List.cons_append]
      rw [dropThroughChar, if_neg hc, ih h.2]

/-- Characters of one `key=value` segment. -/
theorem mem_qsPairChars (k v : String) (c' : Char)
    (h : c' ∈ qsPairChars k v) :
    c' ∈ escList k.data ∨ c' = Char.ofNat 61 ∨ c' ∈ escList v.data := by
  unfold qsPairChars at h
  simpa [List.mem_append, List.mem_cons] using h

/-- The ampersand never occurs inside one `key=value` segment. -/
theorem amp_notMem_qsPairChars (k v : String) :
    Char.ofNat 38 ∉ qsPairChars k v := by
  intro h
  rcases mem_qsPairChars k v _ h with h | h | h
  · exact notMem_escList _ _ (by decide) (by decide) h
  · exact absurd h (by decide)
  · exact notMem_escList _ _ (by decide) (by decide) h

/-- Unfolding lemma for a query string of at least two pairs. -/
theorem qsChars_cons_cons (p q : String × String)
    (rest : List (String × String)) :
    qsChars (p :: q :: rest)
      = qsPairChars p.1 p.2 ++ Char.ofNat 38 :: qsChars (q :: rest) := by
  rw [qsChars]
  simp

/-- Characters of a whole query string. -/
theorem mem_qsChars (pairs : List (String × String)) (c' : Char)
    (h : c' ∈ qsChars pairs) :
    c' = Char.ofNat 38 ∨ ∃ p ∈ pairs, c' ∈ qsPairChars p.1 p.2 := by
  induction pairs with
  | nil => rw [qsChars] at h; cases h
  | cons p rest ih =>
      cases rest with
      | nil =>
          rw [qsChars] at h
          exact Or.inr ⟨p, by simp, h⟩
      | cons q rest2 =>
          rw [qsChars_cons_cons] at h
          rcases List.mem_append.1 h with h | h
          · exact Or.inr ⟨p, by simp, h⟩
          · rcases List.mem_cons.1 h with h | h
            · exact Or.inl h
            · rcases ih h with h | ⟨p2, hp2, hc2⟩
              · exact Or.inl h
              · exact Or.inr ⟨p2, List.mem_cons_of_mem p hp2, hc2⟩

/-- A character that is reserved and is none of `%`, `&`, `=` never occurs
in a query string. -/
theorem notMem_qsChars (c' : Char) (pairs : List (String × String))
    (h1 : isUnreservedChar c' = false) (h2 : ¬ c' = Char.ofNat 37)
    (h3 : ¬ c' = Char.ofNat 38) (h4 : ¬ c' = Char.ofNat 61) :
    c' ∉ qsChars pairs := by
  intro hm
  rcases mem_qsChars pairs c' hm with h | ⟨p, _, hp⟩
  · exact h3 h
  · rcases mem_qsPairChars _ _ _ hp with h | h | h
    · exact notMem_escList _ _ h1 h2 h
    · exact h4 h
    · exact notMem_escList _ _ h1 h2 h

/-- Splitting the query string on `&` recovers the segment per pair. -/
theorem splitOnChar_qsChars (pairs : List (String × String))
    (h : pairs ≠ []) :
    splitOnChar (Char.ofNat 38) (qsChars pairs)
      = pairs.map (fun p => qsPairChars p.1 p.2) := by
  induction pairs with
  | nil => exact absurd rfl h
  | cons p rest ih =>
      cases rest with
      | nil =>
          rw [qsChars]
          rw [splitOnChar_not_mem _ _ (amp_notMem_qsPairChars p.1 p.2)]
          rfl
      | cons q rest2 =>
          rw [qsChars_cons_cons]
          rw [splitOnChar_append _ _ _ (amp_notMem_qsPairChars p.1 p.2)]
          rw [ih (by simp)]
          rfl

/-- Decoding one segment recovers the original pair. -/
theorem decodePair_qsPairChars (k v : String) :
    decodePair (qsPairChars k v) = (k, v) := by
  unfold decodePair qsPairChars
  rw [splitKV_append _ _ (notMem_escList _ _ (by decide) (by decide))]
  rw [unescape_escList, unescape_escList]

/-- Decoding the query parameters of any URL built as endpoint, `?`, a
nonempty stringified pair list, and the `#wechat_redirect` fragment recovers
the pairs exactly. -/
theorem decodeQueryParams_build (pairs : List (String × String))
    (h : pairs ≠ []) :
    decodeQueryParams
      ("https://open.weixin.qq.com/connect/oauth2/authorize" ++ "?" ++
        qsStringify pairs ++ "#wechat_redirect") = pairs := by
  unfold decodeQueryParams qsStringify
  have hdata : ("https://open.weixin.qq.com/connect/oauth2/authorize" ++ "?" ++
      (⟨qsChars pairs⟩ : String) ++ "#wechat_redirect").data
      = "https://open.weixin.qq.com/connect/oauth2/authorize".data ++
        Char.ofNat 63 ::
          (qsChars pairs ++ Char.ofNat 35 :: "wechat_redirect".data) := by
    simp only [String.data_append]
    rw [show Char.ofNat 63 = '?' from rfl, show Char.ofNat 35 = '#' from rfl]
    simp [List.append_assoc]
  rw [hdata]
  rw [dropThroughChar_append _ _ _ (by decide)]
  rw [takeUntilChar_append _ _ _
    (notMem_qsChars _ pairs (by decide) (by decide) (by decide) (by decide))]
  rw [splitOnChar_qsChars pairs h]
  rw [List.map_map]
  have hmap : ∀ p : String × String,
      (decodePair ∘ fun p => qsPairChars p.1 p.2) p = id p := by
    intro p
    simp only [Function.comp_apply, id_eq]
    rw [decodePair_qsPairChars]
  rw [List.map_congr_left (fun p _ => hmap p), List.map_id]

/-- Claim C7: `getAuthorizeURL` is pure and total, and for every input the
query parameters of the produced URL decode back to exactly the supplied
`redirect_uri`, `scope` and `state`, together with the session's `appid` and
`response_type=code`; an empty `scope` is replaced by the default
`snsapi_base` before encoding. -/
theorem getAuthorizeURL_roundtrip (a : Auth)
    (redirect_uri scope state : String) :
    decodeQueryParams (a.getAuthorizeURL redirect_uri scope state)
      = [("appid", a.appid), ("redirect_uri", redirect_uri),
         ("scope", if scope = "" then "snsapi_base" else scope),
         ("state", state), ("response_type", "code")] := by
  unfold Auth.getAuthorizeURL
  rw [decodeQueryParams_build _ (by simp)]
  unfold jsOrDefault
  by_cases h : state = ""
  · subst h
    simp
  · simp [h]
